import Mathlib

/-!
Shallow embedding of the supervisor-PIN session-token store of
`src/server.js` (the `AUTHENTICATION SYSTEM` block, lines 135-174, and
the three auth route handlers, lines 277-388).

The JavaScript `Map` named `activeTokens` is modelled as an association
list from token strings to `Session` records; `Date.now()` is passed
explicitly as an `Int` argument; the salted SHA-256 `hashPin` is an
abstract function parameter `hash : String → String`; `generateToken()`
(random bytes) is an explicit `newToken` parameter.
-/

set_option autoImplicit false

namespace CWS

/-- The value stored per token in `activeTokens`
(`{ createdAt, expiresAt, ip }`, server.js lines 297-301). -/
structure Session where
  createdAt : Int
  expiresAt : Int
  ip : String
  deriving Repr, DecidableEq

/-- The in-memory `activeTokens` map (server.js line 137), as an
association list keyed by the token string. -/
abbrev Store := List (String × Session)

/-- `activeTokens.has(token)`. -/
def Store.hasTok (s : Store) (t : String) : Bool :=
  s.any (fun p => p.1 == t)

/-- `activeTokens.get(token)` (`undefined` becomes `none`). -/
def Store.getTok (s : Store) (t : String) : Option Session :=
  (s.find? (fun p => p.1 == t)).map Prod.snd

/-- `activeTokens.delete(token)`. -/
def Store.del (s : Store) (t : String) : Store :=
  s.filter (fun p => !(p.1 == t))

/-- `activeTokens.set(token, v)`: replace in place when the key exists,
append otherwise (JS `Map.set` semantics). -/
def Store.set : Store → String → Session → Store
  | [], t, v => [(t, v)]
  | p :: tl, t, v => if p.1 = t then (t, v) :: tl else p :: Store.set tl t v

/-- `validateToken(token)` (server.js lines 153-163).  Returns the boolean
result together with the store after the call, since lazy expiry deletes
the entry as a side effect.  `!token` on a string is truthy exactly for
the empty string; `Date.now() > tokenData.expiresAt` is the strict
comparison as written in the source. -/
def validateToken (s : Store) (token : String) (now : Int) : Bool × Store :=
  if token == "" || !(s.hasTok token) then
    (false, s)
  else
    match s.getTok token with
    | some tokenData =>
      if now > tokenData.expiresAt then (false, s.del token) else (true, s)
    | none => (false, s)

/-- The periodic cleanup callback (server.js lines 166-173): delete every
entry with `now > data.expiresAt` (strict, as in the source). -/
def sweep (s : Store) (now : Int) : Store :=
  s.filter (fun p => !(decide (now > p.2.expiresAt)))

/-- Response body of `POST /api/auth/logout`. -/
structure LogoutResponse where
  success : Bool
  message : String
  deriving Repr, DecidableEq

/-- The logout handler (server.js lines 368-388): delete the entry when
`token && activeTokens.has(token)`, and always answer
`{ success: true, message: 'Logged out successfully' }`. -/
def logout (s : Store) (token : String) : Store × LogoutResponse :=
  (if !(token == "") && s.hasTok token then s.del token else s,
   { success := true, message := "Logged out successfully" })

/-- `TOKEN_EXPIRY_MS = parseInt(process.env.TOKEN_EXPIRY_MS) || 8*60*60*1000`
(server.js line 138).  `none` stands for an unset or non-numeric
environment value (`parseInt` yields `NaN`, which is falsy, like `0`);
any other parsed integer — including a negative one — is kept as is. -/
def TOKEN_EXPIRY_MS (env : Option Int) : Int :=
  match env with
  | some n => if n == 0 then 8 * 60 * 60 * 1000 else n
  | none => 8 * 60 * 60 * 1000

/-- The token-issuing branch of the verify-pin handler (server.js lines
291-310): compute `expiresAt = now + ttl`, store
`{ createdAt: now, expiresAt, ip }` under the fresh token, and return the
token with its expiry. -/
def issueToken (s : Store) (newToken : String) (now ttl : Int) (ip : String) :
    String × Int × Store :=
  let expiresAt := now + ttl
  (newToken, expiresAt,
   s.set newToken { createdAt := now, expiresAt := expiresAt, ip := ip })

/-- Outcome of `POST /api/auth/verify-pin`: `invalidFormat` is the 400
"Invalid PIN format" response, `invalidCredential` the 401 "Invalid PIN"
response, `success` the 200 response carrying the token and expiry. -/
inductive VerifyPinResult where
  | invalidFormat
  | invalidCredential
  | success (token : String) (expiresAt : Int)
  deriving Repr, DecidableEq

/-- The verify-pin handler (server.js lines 277-325).  The format guard is
`!pin || typeof pin !== 'string' || pin.length !== 4` — in this model
`pin` is always a string, so it reduces to emptiness/length checks; note
the source never checks that the characters are digits.  On passing the
guard the handler computes `hash pin` and compares it to the stored
supervisor hash. -/
def verifyPin (hash : String → String) (supervisorPinHash : String)
    (tokenExpiryMs now : Int) (newToken ip : String) (s : Store)
    (pin : String) : VerifyPinResult × Store :=
  if pin == "" || !(pin.length == 4) then
    (.invalidFormat, s)
  else
    let providedPinHash := hash pin
    if providedPinHash == supervisorPinHash then
      let r := issueToken s newToken now tokenExpiryMs ip
      (.success r.1 r.2.1, r.2.2)
    else
      (.invalidCredential, s)

/-- Spec-side predicate (not present in the source): the input is exactly
4 numeric characters. -/
def isDigit4 (p : String) : Bool :=
  p.length == 4 && p.toList.all (fun c => c.isDigit)

/-- One store operation, for stating properties about sequences of calls. -/
inductive Op where
  | doValidate (t : String) (now : Int)
  | doLogout (t : String)
  | doSweep (now : Int)
  | doIssue (t : String) (now ttl : Int) (ip : String)
  deriving Repr, DecidableEq

/-- Effect of one operation on the store. -/
def applyOp (s : Store) : Op → Store
  | .doValidate t now => (validateToken s t now).2
  | .doLogout t => (logout s t).1
  | .doSweep now => sweep s now
  | .doIssue t now ttl ip => (issueToken s t now ttl ip).2.2

/-- Effect of a sequence of operations on the store. -/
def applyOps (s : Store) (ops : List Op) : Store :=
  ops.foldl applyOp s

/-- Whether an operation issues the given token. -/
def Op.issuesTok : Op → String → Bool
  | .doIssue t' _ _ _, t => t' == t
  | _, _ => false

/-- The session-store invariant of the spec's data model:
`expiresAt > issuedAt` for every stored session. -/
def StoreInv (s : Store) : Prop :=
  ∀ p ∈ s, p.2.createdAt < p.2.expiresAt

/-- Well-formed store: no two entries share a token key.  Every state a
JS `Map` can be in satisfies this; the association-list model also admits
duplicate-key lists, which are unreachable. -/
def Store.WF (s : Store) : Prop :=
  (s.map Prod.fst).Nodup

@[simp] theorem getTok_nil (t : String) : Store.getTok [] t = none := rfl

@[simp] theorem getTok_cons (p : String × Session) (tl : Store) (t : String) :
    Store.getTok (p :: tl) t = if p.1 = t then some p.2 else Store.getTok tl t := by
  simp only [Store.getTok, List.find?_cons]
  by_cases h : p.1 = t
  · simp [h]
  · have hb : (p.1 == t) = false := by simp [h]
    simp [h, hb]

@[simp] theorem hasTok_nil (t : String) : Store.hasTok [] t = false := rfl

@[simp] theorem hasTok_cons (p : String × Session) (tl : Store) (t : String) :
    Store.hasTok (p :: tl) t = if p.1 = t then true else Store.hasTok tl t := by
  simp only [Store.hasTok, List.any_cons]
  by_cases h : p.1 = t <;> simp [h]

@[simp] theorem del_nil (t : String) : Store.del [] t = [] := rfl

@[simp] theorem del_cons (p : String × Session) (tl : Store) (t : String) :
    Store.del (p :: tl) t = if p.1 = t then Store.del tl t
      else p :: Store.del tl t := by
  simp only [Store.del, List.filter_cons]
  by_cases h : p.1 = t <;> simp [h]

@[simp] theorem sweep_nil (now : Int) : sweep [] now = [] := rfl

@[simp] theorem sweep_cons (p : String × Session) (tl : Store) (now : Int) :
    sweep (p :: tl) now = if now > p.2.expiresAt then sweep tl now
      else p :: sweep tl now := by
  simp only [sweep, List.filter_cons]
  by_cases h : now > p.2.expiresAt <;> simp [h]

@[simp] theorem set_nil (t : String) (v : Session) :
    Store.set [] t v = [(t, v)] := rfl

@[simp] theorem set_cons (p : String × Session) (tl : Store) (t : String)
    (v : Session) :
    Store.set (p :: tl) t v = if p.1 = t then (t, v) :: tl
      else p :: Store.set tl t v := rfl

theorem hasTok_iff_getTok (s : Store) (t : String) :
    s.hasTok t = (s.getTok t).isSome := by
  induction s with
  | nil => rfl
  | cons p tl ih => by_cases h : p.1 = t <;> simp [h, ih]

theorem hasTok_del_self (s : Store) (t : String) :
    (s.del t).hasTok t = false := by
  induction s with
  | nil => rfl
  | cons p tl ih => by_cases h : p.1 = t <;> simp [h, ih]

theorem getTok_del_ne (s : Store) (t t' : String) (h : t' ≠ t) :
    (s.del t).getTok t' = s.getTok t' := by
  induction s with
  | nil => rfl
  | cons p tl ih =>
    by_cases hp : p.1 = t
    · simp [hp, Ne.symm h, ih]
    · by_cases hq : p.1 = t' <;> simp [hp, hq, h, ih]

theorem hasTok_del_false (s : Store) (t t' : String)
    (h : s.hasTok t = false) : (s.del t').hasTok t = false := by
  induction s with
  | nil => rfl
  | cons p tl ih =>
    by_cases hp : p.1 = t
    · simp [hp] at h
    · by_cases hq : p.1 = t' <;> simp_all [hp, hq]

theorem hasTok_sweep_false (s : Store) (t : String) (now : Int)
    (h : s.hasTok t = false) : (sweep s now).hasTok t = false := by
  induction s with
  | nil => rfl
  | cons p tl ih =>
    by_cases hp : p.1 = t
    · simp [hp] at h
    · rw [sweep_cons]
      by_cases hq : now > p.2.expiresAt
      · simp_all [hp]
      · rw [if_neg hq]
        simp_all [hp]

theorem getTok_set_self (s : Store) (t : String) (v : Session) :
    (s.set t v).getTok t = some v := by
  induction s with
  | nil => simp
  | cons p tl ih => by_cases h : p.1 = t <;> simp [h, ih]

theorem hasTok_set_ne (s : Store) (t t' : String) (v : Session)
    (h : t ≠ t') : (s.set t' v).hasTok t = s.hasTok t := by
  induction s with
  | nil => simp [Ne.symm h]
  | cons p tl ih =>
    by_cases hp : p.1 = t'
    · have : t' ≠ t := Ne.symm h
      simp [hp, this]
    · simp [hp, ih]

theorem validateToken_absent (s : Store) (t : String) (now : Int)
    (h : s.hasTok t = false) : validateToken s t now = (false, s) := by
  simp [validateToken, h]

/-- `validateToken` restated through `getTok` alone. -/
theorem validateToken_eq (s : Store) (t : String) (now : Int) :
    validateToken s t now =
      if t = "" then (false, s)
      else
        match s.getTok t with
        | none => (false, s)
        | some d =>
          if now > d.expiresAt then (false, s.del t) else (true, s) := by
  unfold validateToken
  by_cases ht : t = ""
  · simp [ht]
  · have hb : (t == "") = false := by simp [ht]
    rw [hasTok_iff_getTok]
    cases hg : s.getTok t <;> simp [hb, ht, hg]

theorem getTok_none_of_hasTok_false (s : Store) (t : String)
    (h : s.hasTok t = false) : s.getTok t = none := by
  rw [hasTok_iff_getTok] at h
  cases hg : s.getTok t
  · rfl
  · rw [hg] at h
    simp at h

theorem hasTok_false_of_not_mem (s : Store) (t : String)
    (h : t ∉ s.map Prod.fst) : s.hasTok t = false := by
  induction s with
  | nil => rfl
  | cons p tl ih =>
    simp only [List.map_cons, List.mem_cons] at h
    push_neg at h
    simp [Ne.symm h.1, ih h.2]

/-- On a duplicate-free store, sweeping commutes with lookup in the
expected way: a swept entry is exactly one whose expiry is strictly past. -/
theorem getTok_sweep (s : Store) (now : Int) (t : String) (hwf : s.WF) :
    (sweep s now).getTok t =
      match s.getTok t with
      | none => none
      | some d => if now > d.expiresAt then none else some d := by
  induction s with
  | nil => rfl
  | cons p tl ih =>
    rw [Store.WF, List.map_cons, List.nodup_cons] at hwf
    by_cases hp : p.1 = t
    · by_cases hq : now > p.2.expiresAt
      · have htl : Store.hasTok tl t = false :=
          hasTok_false_of_not_mem tl t (hp ▸ hwf.1)
        have h1 : (sweep tl now).hasTok t = false :=
          hasTok_sweep_false tl t now htl
        simp [hp, hq, getTok_none_of_hasTok_false _ _ h1]
      · simp [hp, hq]
    · by_cases hq : now > p.2.expiresAt
      · simp [hp, hq, ih hwf.2]
      · simp [hp, hq, ih hwf.2]

/-- `validateToken` either leaves the store alone or deletes the queried
key (shared frame lemma). -/
theorem validateToken_store_cases (s : Store) (t : String) (now : Int) :
    (validateToken s t now).2 = s ∨ (validateToken s t now).2 = s.del t := by
  rw [validateToken_eq]
  by_cases ht : t = ""
  · left
    simp [ht]
  · rw [if_neg ht]
    cases hg : s.getTok t with
    | none => left; rfl
    | some d =>
      by_cases hq : now > d.expiresAt
      · right
        simp [hq]
      · left
        simp [hq]

theorem logout_fst (s : Store) (t : String) :
    (logout s t).1 = if !(t == "") && s.hasTok t then s.del t else s := rfl

theorem logout_snd (s : Store) (t : String) :
    (logout s t).2 = ⟨true, "Logged out successfully"⟩ := rfl

/-- After logout of a nonempty token, the token is gone. -/
theorem logout_store_hasTok_false (s : Store) (t : String) (ht : t ≠ "") :
    ((logout s t).1).hasTok t = false := by
  rw [logout_fst]
  by_cases hs : s.hasTok t
  · rw [if_pos (by simp [ht, hs])]
    exact hasTok_del_self s t
  · have hs' : s.hasTok t = false := by simpa using hs
    rw [if_neg (by simp [hs'])]
    exact hs'

/-- Absence of a token is preserved by any operation that does not issue
that token. -/
theorem hasTok_applyOp_false (s : Store) (o : Op) (t : String)
    (h : s.hasTok t = false) (ho : o.issuesTok t = false) :
    (applyOp s o).hasTok t = false := by
  cases o with
  | doValidate t' n =>
    rcases validateToken_store_cases s t' n with hc | hc
    · rw [applyOp, hc]
      exact h
    · rw [applyOp, hc]
      exact hasTok_del_false s t t' h
  | doLogout t' =>
    rw [applyOp, logout_fst]
    by_cases hc : (!(t' == "") && s.hasTok t') = true
    · rw [if_pos hc]
      exact hasTok_del_false s t t' h
    · rw [if_neg hc]
      exact h
  | doSweep n => exact hasTok_sweep_false s t n h
  | doIssue t' n ttl ip =>
    have hne : t ≠ t' := by
      intro hc
      rw [Op.issuesTok, hc] at ho
      simp at ho
    have : (applyOp s (.doIssue t' n ttl ip))
        = s.set t' ⟨n, n + ttl, ip⟩ := rfl
    rw [this, hasTok_set_ne s t t' _ hne]
    exact h

theorem hasTok_applyOps_false (s : Store) (ops : List Op) (t : String)
    (h : s.hasTok t = false) (ho : ∀ o ∈ ops, o.issuesTok t = false) :
    (applyOps s ops).hasTok t = false := by
  induction ops generalizing s with
  | nil => exact h
  | cons o rest ih =>
    rw [applyOps, List.foldl_cons]
    exact ih (applyOp s o)
      (hasTok_applyOp_false s o t h (ho o (List.mem_cons_self o rest)))
      (fun o' ho' => ho o' (List.mem_cons_of_mem o ho'))

/-- Membership in a store after `set` comes from the new pair or the old
store. -/
theorem mem_set (s : Store) (t : String) (v : Session) (p : String × Session)
    (hp : p ∈ s.set t v) : p = (t, v) ∨ p ∈ s := by
  induction s with
  | nil => exact Or.inl (by simpa using hp)
  | cons q tl ih =>
    by_cases h : q.1 = t
    · rw [set_cons, if_pos h] at hp
      rcases List.mem_cons.mp hp with h1 | h1
      · exact Or.inl h1
      · exact Or.inr (List.mem_cons_of_mem q h1)
    · rw [set_cons, if_neg h] at hp
      rcases List.mem_cons.mp hp with h1 | h1
      · exact Or.inr (h1 ▸ List.mem_cons_self q tl)
      · rcases ih h1 with h2 | h2
        · exact Or.inl h2
        · exact Or.inr (List.mem_cons_of_mem q h2)

theorem StoreInv_del (s : Store) (t : String) (hs : StoreInv s) :
    StoreInv (s.del t) := by
  intro p hp
  exact hs p (List.mem_of_mem_filter hp)

theorem StoreInv_sweep (s : Store) (now : Int) (hs : StoreInv s) :
    StoreInv (sweep s now) := by
  intro p hp
  exact hs p (List.mem_of_mem_filter hp)

theorem StoreInv_set (s : Store) (t : String) (v : Session)
    (hs : StoreInv s) (hv : v.createdAt < v.expiresAt) :
    StoreInv (s.set t v) := by
  intro p hp
  rcases mem_set s t v p hp with h | h
  · rw [h]
    exact hv
  · exact hs p h

/-- The effective TTL is positive whenever the configured value is not
negative (unset, unparsable and zero all fall back to the 8-hour
default). -/
theorem TOKEN_EXPIRY_MS_pos (env : Option Int)
    (henv : ∀ n, env = some n → 0 ≤ n) : 0 < TOKEN_EXPIRY_MS env := by
  cases env with
  | none => norm_num [TOKEN_EXPIRY_MS]
  | some n =>
    have h0 := henv n rfl
    by_cases h : n = 0
    · simp [TOKEN_EXPIRY_MS, h]
    · have hb : (n == 0) = false := by simp [h]
      rw [TOKEN_EXPIRY_MS, hb]
      simp only [Bool.false_eq_true, if_false]
      omega

/-- C1, counterexample: at the exact expiry instant (`now = expiresAt`,
so `now ≥ expiresAt`), `validateToken` still returns `true` and deletes
nothing, because the source compares with strict `>`; the claim asserts
it must return `false` and delete the entry. -/
theorem validateToken_at_exact_expiry_cex :
    (100 : Int) ≥ 100
    ∧ (validateToken [("a", ⟨0, 100, "x"⟩)] "a" 100).1 = true
    ∧ (validateToken [("a", ⟨0, 100, "x"⟩)] "a" 100).2
        = [("a", ⟨0, 100, "x"⟩)] := by
  refine ⟨le_refl _, ?_, ?_⟩ <;> decide

/-- C1 (amended): for a nonempty token present in the store,
`validateToken` returns `false` and deletes the entry exactly when the
current time is strictly past `expiresAt`; and it returns `false`,
leaving the store unchanged, for every token absent from the store. -/
theorem validateToken_lazy_expiry (s : Store) (t : String) (now : Int) :
    (∀ d, t ≠ "" → s.getTok t = some d → now > d.expiresAt →
      validateToken s t now = (false, s.del t))
    ∧ (s.getTok t = none → validateToken s t now = (false, s)) := by
  constructor
  · intro d ht hd hexp
    rw [validateToken_eq, if_neg ht, hd]
    simp [hexp]
  · intro hnone
    rw [validateToken_eq]
    by_cases ht : t = ""
    · simp [ht]
    · rw [if_neg ht, hnone]

/-- C1, witness at a concrete expired entry and a concrete absent key. -/
theorem validateToken_lazy_expiry_witness :
    validateToken [("a", ⟨0, 100, "x"⟩)] "a" 101
      = (false, Store.del [("a", ⟨0, 100, "x"⟩)] "a")
    ∧ validateToken [("a", ⟨0, 100, "x"⟩)] "b" 101
      = (false, [("a", ⟨0, 100, "x"⟩)]) :=
  ⟨(validateToken_lazy_expiry [("a", ⟨0, 100, "x"⟩)] "a" 101).1
      ⟨0, 100, "x"⟩ (by decide) (by decide) (by decide),
   (validateToken_lazy_expiry [("a", ⟨0, 100, "x"⟩)] "b" 101).2 (by decide)⟩

/-- C10: a `validateToken` call either leaves the store exactly as it was
or deletes precisely the entries keyed by the queried token; in
particular every other key maps to the same session before and after. -/
theorem validateToken_frame (s : Store) (t : String) (now : Int) :
    ((validateToken s t now).2 = s ∨ (validateToken s t now).2 = s.del t)
    ∧ (∀ t', t' ≠ t → (validateToken s t now).2.getTok t' = s.getTok t') := by
  refine ⟨validateToken_store_cases s t now, ?_⟩
  intro t' hne
  rcases validateToken_store_cases s t now with h | h
  · rw [h]
  · rw [h, getTok_del_ne s t t' hne]

/-- C10, witness: an expired lookup deletes only its own key. -/
theorem validateToken_frame_witness :
    (validateToken [("a", ⟨0, 2, "x"⟩), ("b", ⟨0, 9, "y"⟩)] "a" 5).2.getTok "b"
      = Store.getTok [("a", ⟨0, 2, "x"⟩), ("b", ⟨0, 9, "y"⟩)] "b" :=
  (validateToken_frame [("a", ⟨0, 2, "x"⟩), ("b", ⟨0, 9, "y"⟩)] "a" 5).2
    "b" (by decide)

/-- C4: a token just issued (nonempty, as `generateToken` always returns
64 hex characters) validates as `true` at the unchanged clock instant
when the TTL is positive, and the stored session data is exactly the one
recorded at issuance. -/
theorem validate_after_issue (s : Store) (tk ip : String) (now ttl : Int)
    (htk : tk ≠ "") (httl : 0 < ttl) :
    (validateToken (issueToken s tk now ttl ip).2.2 tk now).1 = true
    ∧ ((issueToken s tk now ttl ip).2.2).getTok tk
        = some ⟨now, now + ttl, ip⟩ := by
  have h1 : (issueToken s tk now ttl ip).2.2
      = s.set tk ⟨now, now + ttl, ip⟩ := rfl
  have hget := getTok_set_self s tk (⟨now, now + ttl, ip⟩ : Session)
  constructor
  · rw [h1, validateToken_eq, if_neg htk, hget]
    have hlt : ¬ now > (Session.mk now (now + ttl) ip).expiresAt := by
      simp only [Session.expiresAt]
      omega
    simp [hlt]
  · rw [h1]
    exact hget

/-- C4, witness at a fresh store with a 1000ms TTL. -/
theorem validate_after_issue_witness :
    (validateToken (issueToken [] "tok" 0 1000 "ip").2.2 "tok" 0).1 = true :=
  (validate_after_issue [] "tok" "ip" 0 1000 (by decide) (by decide)).1

/-- C6: `logout` always reports success, its response is identical for
every store and token (so it never reveals whether the token existed),
and running it twice leaves the same store as running it once. -/
theorem logout_idempotent_uniform (s : Store) (t : String) :
    (logout s t).2.success = true
    ∧ (∀ (s' : Store) (t' : String), (logout s t).2 = (logout s' t').2)
    ∧ (logout (logout s t).1 t).1 = (logout s t).1 := by
  refine ⟨rfl, fun s' t' => rfl, ?_⟩
  by_cases ht : t = ""
  · rw [logout_fst ((logout s t).1) t]
    simp [ht]
  · rw [logout_fst ((logout s t).1) t, logout_store_hasTok_false s t ht]
    simp

/-- C7, counterexample: an entry whose expiry equals the sweep instant
(`expiresAt ≤ now`) survives the sweep, because the source deletes only
on strict `now > expiresAt`; the claim asserts it must be removed. -/
theorem sweep_boundary_cex :
    (5 : Int) ≤ 5 ∧ sweep [("a", ⟨0, 5, "x"⟩)] 5 = [("a", ⟨0, 5, "x"⟩)] := by
  exact ⟨le_refl _, by decide⟩

/-- C7 (amended): after a sweep at `now`, no entry with
`expiresAt < now` remains, and every entry with `expiresAt ≥ now` is
still present, untouched. -/
theorem sweep_removes_strictly_expired (s : Store) (now : Int) :
    (∀ p ∈ sweep s now, ¬ p.2.expiresAt < now)
    ∧ (∀ p ∈ s, now ≤ p.2.expiresAt → p ∈ sweep s now) := by
  constructor
  · intro p hp
    rw [sweep, List.mem_filter] at hp
    simpa using hp.2
  · intro p hp hle
    rw [sweep, List.mem_filter]
    refine ⟨hp, ?_⟩
    simpa using not_lt.mpr hle

/-- C7, witness: a live entry survives a sweep that removes an expired
sibling. -/
theorem sweep_removes_strictly_expired_witness :
    ("a", (⟨0, 5, "x"⟩ : Session))
      ∈ sweep [("a", ⟨0, 5, "x"⟩), ("b", ⟨0, 3, "y"⟩)] 4 :=
  (sweep_removes_strictly_expired
      [("a", ⟨0, 5, "x"⟩), ("b", ⟨0, 3, "y"⟩)] 4).2
    ("a", ⟨0, 5, "x"⟩) (by decide) (by decide)

/-- C2: the format guard of the verify-pin handler checks only that the
input is a nonempty string of length 4, never that its characters are
digits, so the 4-character non-numeric input "12a4" is never rejected as
`invalidFormat`: it reaches the hash comparison and (its hash differing
from the supervisor hash, exhibited here with an injective instance) is
rejected as `invalidCredential` instead. -/
theorem verifyPin_nonNumeric_not_invalidFormat :
    (∀ (hash : String → String) (sup : String) (ttl now : Int)
        (tk ip : String) (s : Store),
      (verifyPin hash sup ttl now tk ip s "12a4").1 ≠ .invalidFormat)
    ∧ (verifyPin (fun x => x) ((fun x => x) "4698") 1000 0 "tok" "ip" []
        "12a4").1 = .invalidCredential := by
  constructor
  · intro hash sup ttl now tk ip s
    have hg : (("12a4" : String) == "" || !("12a4".length == 4)) = false := by
      decide
    simp only [verifyPin, hg, Bool.false_eq_true, if_false]
    by_cases h : (hash "12a4" == sup) = true
    · simp [h]
    · have hb : (hash "12a4" == sup) = false := by simpa using h
      simp [hb]
  · decide

/-- C3: for a 4-digit numeric input, verify-pin (with the supervisor
hash configured as the salted hash of a 4-digit secret) succeeds exactly
on the secret — returning the freshly issued token with its expiry and
storing the session — and answers `invalidCredential` on every other
4-digit input, provided the hash is injective on 4-digit strings. -/
theorem verifyPin_credential_decision (hash : String → String)
    (secret pin : String) (ttl now : Int) (tk ip : String) (s : Store)
    (hinj : ∀ a b, isDigit4 a = true → isDigit4 b = true →
      hash a = hash b → a = b)
    (hsec : isDigit4 secret = true) (hpin : isDigit4 pin = true) :
    (pin = secret →
      verifyPin hash (hash secret) ttl now tk ip s pin
        = (.success tk (now + ttl), s.set tk ⟨now, now + ttl, ip⟩))
    ∧ (pin ≠ secret →
      verifyPin hash (hash secret) ttl now tk ip s pin
        = (.invalidCredential, s)) := by
  have hlen : pin.length = 4 := by
    rw [isDigit4, Bool.and_eq_true] at hpin
    have := hpin.1
    simpa using this
  have hne : pin ≠ "" := by
    intro h
    rw [h] at hlen
    simp at hlen
  have hg : (pin == "" || !(pin.length == 4)) = false := by
    simp [hne, hlen]
  constructor
  · intro heq
    subst heq
    simp only [verifyPin, hg, Bool.false_eq_true, if_false,
      beq_self_eq_true, if_true]
    rfl
  · intro hneq
    have hdiff : hash pin ≠ hash secret := fun hc =>
      hneq (hinj pin secret hpin hsec hc)
    have hb : (hash pin == hash secret) = false := by simpa using hdiff
    simp only [verifyPin, hg, Bool.false_eq_true, if_false, hb]

/-- C3, witness with the identity hash (injective everywhere) and secret
"4698": the secret succeeds, "0000" is rejected as a bad credential. -/
theorem verifyPin_credential_decision_witness :
    verifyPin (fun x => x) ((fun x => x) "4698") 1000 0 "tok" "ip" [] "4698"
      = (.success "tok" (0 + 1000), Store.set [] "tok" ⟨0, 0 + 1000, "ip"⟩)
    ∧ verifyPin (fun x => x) ((fun x => x) "4698") 1000 0 "tok" "ip" [] "0000"
      = (.invalidCredential, []) :=
  ⟨(verifyPin_credential_decision (fun x => x) "4698" "4698" 1000 0 "tok"
      "ip" [] (fun a b _ _ h => h) (by decide) (by decide)).1 rfl,
   (verifyPin_credential_decision (fun x => x) "4698" "0000" 1000 0 "tok"
      "ip" [] (fun a b _ _ h => h) (by decide) (by decide)).2 (by decide)⟩

/-- C5: once a token has been logged out, validating it answers `false`
at every later instant — in particular strictly before its original
expiry — and stays `false` across any further sequence of validate,
logout, sweep and issue calls, as long as no issue call re-issues that
very token string. -/
theorem validate_false_after_revoke (s : Store) (t : String)
    (ops : List Op) (now : Int)
    (hops : ∀ o ∈ ops, o.issuesTok t = false) :
    (validateToken (applyOps (logout s t).1 ops) t now).1 = false := by
  by_cases ht : t = ""
  · rw [validateToken_eq]
    simp [ht]
  · have h0 : ((logout s t).1).hasTok t = false :=
      logout_store_hasTok_false s t ht
    have h1 : (applyOps (logout s t).1 ops).hasTok t = false :=
      hasTok_applyOps_false _ ops t h0 hops
    rw [validateToken_absent _ t now h1]

/-- C5, witness: a revoked, unexpired token stays invalid after a later
sweep. -/
theorem validate_false_after_revoke_witness :
    (validateToken
        (applyOps (logout [("t0", ⟨0, 100, "x"⟩)] "t0").1 [Op.doSweep 0])
        "t0" 50).1 = false :=
  validate_false_after_revoke [("t0", ⟨0, 100, "x"⟩)] "t0" [Op.doSweep 0] 50
    (by decide)

/-- C8: on a duplicate-free store (the only states a JS `Map` can reach),
running the sweep first never changes the outcome of a validation
performed at the same instant: sweep only removes entries that lazy
expiry would reject anyway. -/
theorem validate_unaffected_by_sweep (s : Store) (t : String) (now : Int)
    (hwf : s.WF) :
    (validateToken (sweep s now) t now).1 = (validateToken s t now).1 := by
  rw [validateToken_eq, validateToken_eq]
  by_cases ht : t = ""
  · simp [ht]
  · rw [if_neg ht, if_neg ht, getTok_sweep s now t hwf]
    cases hg : s.getTok t with
    | none => rfl
    | some d =>
      by_cases hq : now > d.expiresAt
      · simp [hq]
      · simp [hq]

/-- C8, witness on a one-entry live store. -/
theorem validate_unaffected_by_sweep_witness :
    (validateToken (sweep [("a", ⟨0, 5, "x"⟩)] 9) "a" 9).1
      = (validateToken [("a", ⟨0, 5, "x"⟩)] "a" 9).1 :=
  validate_unaffected_by_sweep [("a", ⟨0, 5, "x"⟩)] "a" 9
    (by simp [Store.WF])

/-- C9, counterexample: with `TOKEN_EXPIRY_MS` configured to `-100`
(`parseInt` keeps negative values, and `-100` is truthy so the 8-hour
default is not applied), an issued session has `expiresAt = -100` below
its `issuedAt = 0`, violating `expiresAt > issuedAt`. -/
theorem negative_ttl_cex :
    TOKEN_EXPIRY_MS (some (-100)) = -100
    ∧ ((issueToken [] "t" 0 (TOKEN_EXPIRY_MS (some (-100))) "ip").2.2).getTok
        "t" = some ⟨0, -100, "ip"⟩
    ∧ ¬ ((0 : Int) < -100) :=
  ⟨by decide, by decide, by decide⟩

/-- C9 (amended): whenever the configured TTL is not negative (unset,
unparsable and zero all fall back to the positive 8-hour default, and
positive values are kept), every session `issue` places in the store
satisfies `expiresAt > issuedAt`, and the invariant is preserved by all
four operations, since validate, logout and sweep only delete entries
and never modify a stored session. -/
theorem expiry_invariant_preserved (env : Option Int) (s : Store)
    (tk ip t : String) (now tv : Int)
    (henv : ∀ n, env = some n → 0 ≤ n) (hs : StoreInv s) :
    StoreInv (issueToken s tk now (TOKEN_EXPIRY_MS env) ip).2.2
    ∧ StoreInv (validateToken s t tv).2
    ∧ StoreInv (logout s t).1
    ∧ StoreInv (sweep s tv) := by
  refine ⟨?_, ?_, ?_, StoreInv_sweep s tv hs⟩
  · have hpos := TOKEN_EXPIRY_MS_pos env henv
    have h1 : (issueToken s tk now (TOKEN_EXPIRY_MS env) ip).2.2
        = s.set tk ⟨now, now + TOKEN_EXPIRY_MS env, ip⟩ := rfl
    rw [h1]
    refine StoreInv_set s tk _ hs ?_
    show now < now + TOKEN_EXPIRY_MS env
    omega
  · rcases validateToken_store_cases s t tv with h | h
    · rw [h]
      exact hs
    · rw [h]
      exact StoreInv_del s t hs
  · rw [logout_fst]
    by_cases hc : (!(t == "") && s.hasTok t) = true
    · rw [if_pos hc]
      exact StoreInv_del s t hs
    · rw [if_neg hc]
      exact hs

/-- C9, witness: issuing with the default (unset) TTL into the empty
store keeps the invariant. -/
theorem expiry_invariant_preserved_witness :
    StoreInv (issueToken [] "t" 0 (TOKEN_EXPIRY_MS none) "ip").2.2 :=
  (expiry_invariant_preserved none [] "t" "ip" "u" 0 0
      (fun n h => nomatch h) (by simp [StoreInv])).1

end CWS
